import Mathlib

/-!
Verification of the batched data-loading core of the fit-rs repository.

The repository wires a GraphQL schema over a Postgres store.  The code under
`src/src/main.rs` contributes: the `Exercise` row type, the
`ExerciseLoader::load` batch fetch (a SQL `SELECT ... WHERE id IN keys`
collected into a map keyed by `id`), the `QueryRoot::exercise` resolver that
goes through `DataLoader::load_one`, the hardcoded `QueryRoot::exercises`
resolver, and the bootstrap SQL in `run` that seeds rows
(1, Squat), (2, Deadlift), (3, Row).

The batching window and per-request cache themselves live in the
`async-graphql` dataloader, outside `src/`; those parts are modelled from the
spec (sections 4.1 and 4.2) and are marked `Modelled from the spec:` below.
-/

/-- The `Exercise` row: `id INTEGER PRIMARY KEY, name TEXT` (struct `Exercise`
in `main.rs`). -/
structure Exercise where
  id : Int
  name : String
deriving DecidableEq, Repr

/-- Errors of the backing store (`FieldError` carrying a sqlx error in the
source); the message is all that matters to the model. -/
abbrev StoreError := String

/-- Outcome of one settled load: a found entity, an explicit absence, or a
propagated store error. -/
inductive Outcome where
  | found (e : Exercise)
  | absent
  | error (err : StoreError)
deriving DecidableEq, Repr

/-- First-match association-list lookup, the model of `HashMap` lookup for the
map that `ExerciseLoader::load` collects. -/
def lookupKey {α : Type} : Int → List (Int × α) → Option α
  | _, [] => none
  | k, (k', v) :: rest => if k = k' then some v else lookupKey k rest

/-- Embedding of `ExerciseLoader::load` on a healthy store: the SQL
`SELECT id, name FROM exercises WHERE id IN (SELECT * FROM UNNEST($1))`
filters the table rows to those whose `id` is among `keys`, and
`map_ok (|exercise| (exercise.id, exercise))` with `try_collect` builds the
map keyed by each row's own `id`. -/
def ExerciseLoader.load (table : List Exercise) (keys : List Int) :
    List (Int × Exercise) :=
  (table.filter (fun e => keys.contains e.id)).map (fun e => (e.id, e))

/-- A backing-store fetch: given the batch key set, either the collected
key-to-row map or a `StoreError`. -/
abbrev Fetch := List Int → Except StoreError (List (Int × Exercise))

/-- A healthy store backed by `table` answers every batch via
`ExerciseLoader.load`. -/
def storeFetch (table : List Exercise) : Fetch :=
  fun keys => Except.ok (ExerciseLoader.load table keys)

/-- A broken store fails every batch with the same `StoreError`. -/
def failFetch (err : StoreError) : Fetch :=
  fun _ => Except.error err

/-- The rows seeded by the bootstrap SQL in `run`:
`INSERT INTO exercises (id, name) VALUES (1, 'Squat'), (2, 'Deadlift'), (3, 'Row')`. -/
def seededTable : List Exercise :=
  [⟨1, "Squat"⟩, ⟨2, "Deadlift"⟩, ⟨3, "Row"⟩]

/-- Modelled from the spec: the deduplication step of the Batch Loader
(section 4.1, "build the distinct key set"); keeps the first occurrence of
each key. The dataloader implementing it is in `async-graphql`, not under
`src/`. -/
def distinctKeys : List Int → List Int
  | [] => []
  | k :: ks => k :: (distinctKeys ks).filter (fun j => decide (j ≠ k))

/-- Modelled from the spec: the Per-Request Cache (section 4.2), a mapping
from key to settled outcome scoped to one logical request. The cache
implementation is part of the `async-graphql` dataloader, not under `src/`. -/
structure Scope where
  cache : List (Int × Outcome)
deriving DecidableEq, Repr

/-- A scope as created at the start of one logical request: empty cache. -/
def Scope.empty : Scope := ⟨[]⟩

/-- Fan-out of one batch result to one key (spec section 4.1): key present in
the result map resolves to the entity, key absent resolves to `absent`, and a
failed fetch propagates the same error to every key of the batch. -/
def settleKey (fr : Except StoreError (List (Int × Exercise))) (k : Int) :
    Outcome :=
  match fr with
  | Except.ok rows =>
    match lookupKey k rows with
    | some e => Outcome.found e
    | none => Outcome.absent
  | Except.error err => Outcome.error err

/-- Modelled from the spec: one collection window of the Batch Loader plus the
Per-Request Cache (sections 4.1 and 4.2), which live in the `async-graphql`
dataloader, not under `src/`. The concurrently-issued `load_one` requests of
the window are `requests`; already-cached keys are filtered out before the key
set is deduplicated; at most one dispatch carries the remaining distinct keys
(none when that set is empty); each settled outcome is cached; every request
resolves from the updated cache. Returns the per-request outcomes, the updated
scope, and the list of dispatched key sets. -/
def runBatch (fetch : Fetch) (scope : Scope) (requests : List Int) :
    List Outcome × Scope × List (List Int) :=
  let toFetch :=
    distinctKeys (requests.filter (fun k => (lookupKey k scope.cache).isNone))
  let dispatches := if toFetch.isEmpty then [] else [toFetch]
  let fr := fetch toFetch
  let cache' := scope.cache ++ toFetch.map (fun k => (k, settleKey fr k))
  (requests.map (fun k => (lookupKey k cache').getD Outcome.absent),
   ⟨cache'⟩, dispatches)

/-- Translation of the `?`-then-`Ok(exercise)` tail of `QueryRoot::exercise`:
a found entity or an absence become a GraphQL success carrying an `Option`,
while a store error propagates as a field error. -/
def outcomeToResult : Outcome → Except StoreError (Option Exercise)
  | Outcome.found e => Except.ok (some e)
  | Outcome.absent => Except.ok none
  | Outcome.error err => Except.error err

/-- Embedding of `QueryRoot::exercise`: resolve one id through the dataloader
(`load_one`) in the given scope, returning the field result, the updated
scope, and the dispatched key sets. -/
def QueryRoot.exercise (fetch : Fetch) (scope : Scope) (id : Int) :
    Except StoreError (Option Exercise) × Scope × List (List Int) :=
  let r := runBatch fetch scope [id]
  (outcomeToResult (r.1.headD Outcome.absent), r.2.1, r.2.2)

/-- Embedding of `QueryRoot::exercises`: the body ignores the context (the
store and the loader) and returns the hardcoded one-element vector holding the
exercise with id 1 and name "Hi"; the scope is passed through untouched and no
dispatch occurs because the body never calls the loader. -/
def QueryRoot.exercises (_table : List Exercise) (scope : Scope) :
    List Exercise × Scope × List (List Int) :=
  ([⟨1, "Hi"⟩], scope, [])

/-- Modelled from the spec: the unbatched `fetch_all() -> sequence of Entity`
capability of section 6 ("fetch all entities of a kind ... a direct unbatched
fetch against the store"), used only to compare the hardcoded `exercises`
resolver against what a real store fetch would return. -/
def fetch_all (table : List Exercise) : List Exercise :=
  table

/-- Every key of `distinctKeys keys` is a key of `keys` and conversely. -/
theorem mem_distinctKeys (keys : List Int) (k : Int) :
    k ∈ distinctKeys keys ↔ k ∈ keys := by
  induction keys with
  | nil => simp [distinctKeys]
  | cons a as ih =>
    by_cases h : k = a
    · subst h; simp [distinctKeys]
    · simp [distinctKeys, List.mem_filter, h, ih]

/-- `distinctKeys` produces a list without duplicates. -/
theorem nodup_distinctKeys (keys : List Int) : (distinctKeys keys).Nodup := by
  induction keys with
  | nil => simp [distinctKeys]
  | cons a as ih =>
    refine List.Nodup.cons ?_ (List.Nodup.filter _ ih)
    intro hmem
    have hne := (List.mem_filter.mp hmem).2
    simp at hne

/-- Looking a key up in a constant-valued self-keyed map finds the constant
exactly when the key occurs. -/
theorem lookupKey_map_const {α : Type} (l : List Int) (v : α) (k : Int) :
    lookupKey k (l.map (fun j => (j, v))) = if k ∈ l then some v else none := by
  induction l with
  | nil => simp [lookupKey]
  | cons a as ih =>
    by_cases h : k = a
    · subst h; simp [lookupKey]
    · simp [lookupKey, h, ih]

/-- C2: with the store seeded by the bootstrap SQL of `run`
(rows (1, Squat), (2, Deadlift), (3, Row)), the four `load_one` calls for
keys 1, 2, 3, 4 issued in one scope resolve to Squat, Deadlift, Row and
absent respectively, and exactly one batched dispatch occurs, carrying
exactly the key set 1, 2, 3, 4. -/
theorem C2_seeded_scenario :
    (runBatch (storeFetch seededTable) Scope.empty [1, 2, 3, 4]).1 =
      [Outcome.found ⟨1, "Squat"⟩, Outcome.found ⟨2, "Deadlift"⟩,
       Outcome.found ⟨3, "Row"⟩, Outcome.absent] ∧
    (runBatch (storeFetch seededTable) Scope.empty [1, 2, 3, 4]).2.2 =
      [[1, 2, 3, 4]] := by
  decide

/-- C6: one hundred concurrent `load_one 7` calls in one scope, with the store
holding the single row (7, X), trigger exactly one dispatch carrying exactly
key 7, and every one of the hundred callers receives the same found entity
(7, X). -/
theorem C6_hundred_callers :
    (runBatch (storeFetch [⟨7, "X"⟩]) Scope.empty (List.replicate 100 7)).1 =
      List.replicate 100 (Outcome.found ⟨7, "X"⟩) ∧
    (runBatch (storeFetch [⟨7, "X"⟩]) Scope.empty (List.replicate 100 7)).2.2 =
      [[7]] := by
  decide

/-- C10: the `exercises` resolver returns exactly the one hardcoded entity
with id 1 and name "Hi", for every store content and every scope: its result
is a constant independent of the database state, and it performs no store
access (no dispatch is recorded). -/
theorem C10_hardcoded_constant (table : List Exercise) (scope : Scope) :
    (QueryRoot.exercises table scope).1 = [⟨1, "Hi"⟩] ∧
    (QueryRoot.exercises table scope).2.2 = [] :=
  ⟨rfl, rfl⟩

/-- C8 counterexample: on the seeded store, the `exercises` resolver does not
issue a fetch against the backing store: its result differs from what the
unbatched `fetch_all` store fetch returns, and the entity it produces is not
a row of the store at all, so no store fetch could have produced it. -/
theorem C8_no_store_fetch :
    (QueryRoot.exercises seededTable Scope.empty).1 ≠ fetch_all seededTable ∧
    Exercise.mk 1 "Hi" ∉ seededTable ∧
    (QueryRoot.exercises seededTable Scope.empty).1 = [⟨1, "Hi"⟩] := by
  decide

/-- C8 (amended): every invocation of the `exercises` resolver bypasses the
loader and cache entirely — it leaves the scope unchanged, shares no cache
state with the keyed `load_one` path, and records no loader dispatch — and
returns the hardcoded list holding the single entity with id 1 and name "Hi"
without fetching from the backing store. -/
theorem C8_bypasses_loader (table : List Exercise) (scope : Scope) :
    QueryRoot.exercises table scope = ([⟨1, "Hi"⟩], scope, []) :=
  rfl

/-- C9: every entry (k, e) of a map returned by `ExerciseLoader.load`
satisfies that the entity is stored under its own id (e.id = k) and that the
key belongs to the requested key slice (the SQL filter admits no extraneous
rows). -/
theorem C9_map_entries (table : List Exercise) (keys : List Int) (k : Int)
    (e : Exercise) (h : (k, e) ∈ ExerciseLoader.load table keys) :
    e.id = k ∧ k ∈ keys := by
  simp only [ExerciseLoader.load, List.mem_map, List.mem_filter] at h
  rcases h with ⟨e', ⟨he'tab, he'keys⟩, heq⟩
  have hid : e'.id = k := congrArg Prod.fst heq
  have hee : e' = e := congrArg Prod.snd heq
  subst hee
  refine ⟨hid, ?_⟩
  rw [← hid]
  simpa using he'keys

/-- Witness for C9 at a concrete entry of a concrete batch. -/
theorem C9_map_entries_witness :
    (1, Exercise.mk 1 "Squat") ∈ ExerciseLoader.load seededTable [1, 2] ∧
    ((Exercise.mk 1 "Squat").id = 1 ∧ (1 : Int) ∈ [1, 2]) :=
  ⟨by decide, C9_map_entries seededTable [1, 2] 1 (Exercise.mk 1 "Squat") (by decide)⟩

/-- C1: whenever at least one requested key of the window is not already
cached in the scope, the backing store fetch is invoked exactly once for the
window, and the key set it receives is exactly (without duplicates) the set of
distinct keys requested in that scope minus the keys already present in the
scope's cache. -/
theorem C1_single_dispatch (fetch : Fetch) (scope : Scope)
    (requests : List Int)
    (h : requests.filter (fun k => (lookupKey k scope.cache).isNone) ≠ []) :
    (runBatch fetch scope requests).2.2.length = 1 ∧
    ∀ d ∈ (runBatch fetch scope requests).2.2, d.Nodup ∧
      (∀ k ∈ d, k ∈ requests ∧ lookupKey k scope.cache = none) ∧
      (∀ k ∈ requests, lookupKey k scope.cache = none → k ∈ d) := by
  have hfalse :
      (distinctKeys (requests.filter
        (fun k => (lookupKey k scope.cache).isNone))).isEmpty = false := by
    cases hfil : requests.filter (fun k => (lookupKey k scope.cache).isNone) with
    | nil => exact absurd hfil h
    | cons a as => rfl
  have hdisp : (runBatch fetch scope requests).2.2 =
      [distinctKeys (requests.filter
        (fun k => (lookupKey k scope.cache).isNone))] := by
    simp [runBatch, hfalse]
  refine ⟨by rw [hdisp]; rfl, ?_⟩
  intro d hd
  rw [hdisp] at hd
  simp only [List.mem_singleton] at hd
  subst hd
  refine ⟨nodup_distinctKeys _, ?_, ?_⟩
  · intro k hk
    rw [mem_distinctKeys] at hk
    have hk' := List.mem_filter.mp hk
    exact ⟨hk'.1, by simpa [Option.isNone_iff_eq_none] using hk'.2⟩
  · intro k hk hnone
    rw [mem_distinctKeys]
    exact List.mem_filter.mpr ⟨hk, by simp [hnone]⟩

/-- Witness for C1: scope with key 2 already cached, window requesting keys
1, 2, 1, 4; one dispatch carrying exactly the distinct uncached keys 1, 4. -/
theorem C1_single_dispatch_witness :
    [1, 2, 1, 4].filter
      (fun k => (lookupKey k (Scope.mk
        [(2, Outcome.found ⟨2, "Deadlift"⟩)]).cache).isNone) ≠ [] ∧
    ((runBatch (storeFetch seededTable)
        (Scope.mk [(2, Outcome.found ⟨2, "Deadlift"⟩)]) [1, 2, 1, 4]).2.2.length = 1 ∧
      ∀ d ∈ (runBatch (storeFetch seededTable)
          (Scope.mk [(2, Outcome.found ⟨2, "Deadlift"⟩)]) [1, 2, 1, 4]).2.2,
        d.Nodup ∧
        (∀ k ∈ d, k ∈ [1, 2, 1, 4] ∧
          lookupKey k (Scope.mk [(2, Outcome.found ⟨2, "Deadlift"⟩)]).cache = none) ∧
        (∀ k ∈ [1, 2, 1, 4],
          lookupKey k (Scope.mk [(2, Outcome.found ⟨2, "Deadlift"⟩)]).cache = none →
            k ∈ d)) :=
  ⟨by decide,
   C1_single_dispatch (storeFetch seededTable)
     (Scope.mk [(2, Outcome.found ⟨2, "Deadlift"⟩)]) [1, 2, 1, 4] (by decide)⟩

/-- C3: for every key absent from the store, `QueryRoot.exercise` in a fresh
scope resolves to a success carrying no value (absent, cached as such), with
exactly one dispatch carrying that key; in particular the result is never a
store error, so absence is distinguishable from a store failure. -/
theorem C3_absent_not_error (table : List Exercise) (k : Int)
    (h : ∀ e ∈ table, e.id ≠ k) :
    QueryRoot.exercise (storeFetch table) Scope.empty k =
      (Except.ok none, ⟨[(k, Outcome.absent)]⟩, [[k]]) ∧
    ∀ err : StoreError,
      (QueryRoot.exercise (storeFetch table) Scope.empty k).1 ≠
        Except.error err := by
  have hfil : table.filter (fun e => decide (e.id = k)) = [] := by
    rw [List.filter_eq_nil_iff]
    intro e he
    simpa using h e he
  have heq : QueryRoot.exercise (storeFetch table) Scope.empty k =
      (Except.ok none, ⟨[(k, Outcome.absent)]⟩, [[k]]) := by
    simp [QueryRoot.exercise, runBatch, storeFetch, ExerciseLoader.load, hfil,
      distinctKeys, lookupKey, settleKey, Scope.empty, outcomeToResult]
  refine ⟨heq, ?_⟩
  intro err
  rw [heq]
  simp

/-- Witness for C3: key 4 is absent from the seeded store. -/
theorem C3_absent_not_error_witness :
    (∀ e ∈ seededTable, e.id ≠ 4) ∧
    (QueryRoot.exercise (storeFetch seededTable) Scope.empty 4 =
      (Except.ok none, ⟨[(4, Outcome.absent)]⟩, [[4]]) ∧
    ∀ err : StoreError,
      (QueryRoot.exercise (storeFetch seededTable) Scope.empty 4).1 ≠
        Except.error err) :=
  ⟨by decide, C3_absent_not_error seededTable 4 (by decide)⟩

/-- C4: when the backing store fetch fails, every pending request of the
batch resolves to the same propagated store error — no request in that batch
receives a partial success. -/
theorem C4_error_fanout (err : StoreError) (requests : List Int) :
    ∀ o ∈ (runBatch (failFetch err) Scope.empty requests).1,
      o = Outcome.error err := by
  intro o ho
  simp only [runBatch, failFetch, settleKey, Scope.empty] at ho
  rcases List.mem_map.mp ho with ⟨k, hkreq, rfl⟩
  rw [List.nil_append, lookupKey_map_const, if_pos]
  · rfl
  · exact (mem_distinctKeys _ _).mpr
      (List.mem_filter.mpr ⟨hkreq, by simp [lookupKey]⟩)

/-- Witness for C4: a failing store on the batch for key 5 resolves that
pending request to the propagated error. -/
theorem C4_error_fanout_witness :
    Outcome.error "boom" ∈
      (runBatch (failFetch "boom") Scope.empty [5]).1 ∧
    Outcome.error "boom" = Outcome.error "boom" :=
  ⟨by decide, C4_error_fanout "boom" [5] (Outcome.error "boom") (by decide)⟩

/-- C5: two `load_one k` calls for the same key in the same scope yield
identical outcomes (the same entity, the same absence, or the same cached
store error), with exactly one dispatch in total: the first call dispatches
the key once and the second is served from the scope's cache with no
dispatch. -/
theorem C5_idempotent (fetch : Fetch) (k : Int) :
    (runBatch fetch (runBatch fetch Scope.empty [k]).2.1 [k]).1 =
      (runBatch fetch Scope.empty [k]).1 ∧
    (runBatch fetch Scope.empty [k]).2.2 = [[k]] ∧
    (runBatch fetch (runBatch fetch Scope.empty [k]).2.1 [k]).2.2 = [] := by
  refine ⟨?_, ?_, ?_⟩ <;>
    simp [runBatch, distinctKeys, lookupKey, Scope.empty]

/-- C7: a fresh scope never sees a value cached by an earlier scope: scope A
settles and caches its own fetched outcome for key k, yet a fresh scope B
asking for the same key dispatches to the store again and resolves to the
store's current answer — when the store's answer changed after A cached, B's
outcome differs from A's cached one. -/
theorem C7_scope_isolation (fetchA fetchB : Fetch) (k : Int)
    (h : settleKey (fetchA [k]) k ≠ settleKey (fetchB [k]) k) :
    (runBatch fetchA Scope.empty [k]).2.1 =
      ⟨[(k, settleKey (fetchA [k]) k)]⟩ ∧
    (runBatch fetchB Scope.empty [k]).2.2 = [[k]] ∧
    (runBatch fetchB Scope.empty [k]).1 ≠
      (runBatch fetchA Scope.empty [k]).1 := by
  have hA : (runBatch fetchA Scope.empty [k]).1 =
      [settleKey (fetchA [k]) k] := by
    simp [runBatch, distinctKeys, lookupKey, Scope.empty]
  have hB : (runBatch fetchB Scope.empty [k]).1 =
      [settleKey (fetchB [k]) k] := by
    simp [runBatch, distinctKeys, lookupKey, Scope.empty]
  refine ⟨?_, ?_, ?_⟩
  · simp [runBatch, distinctKeys, lookupKey, Scope.empty]
  · simp [runBatch, distinctKeys, lookupKey, Scope.empty]
  · rw [hA, hB]
    intro hcontra
    exact h (by injection hcontra with h1 _; exact h1.symm)

/-- Witness for C7: scope A ran against the seeded store and cached the found
row (1, Squat) for key 1; a fresh scope B running against an emptied store
dispatches key 1 again and resolves to absent, not to A's cached value. -/
theorem C7_scope_isolation_witness :
    settleKey (storeFetch seededTable [1]) 1 ≠ settleKey (storeFetch [] [1]) 1 ∧
    ((runBatch (storeFetch seededTable) Scope.empty [1]).2.1 =
      ⟨[(1, settleKey (storeFetch seededTable [1]) 1)]⟩ ∧
    (runBatch (storeFetch []) Scope.empty [1]).2.2 = [[1]] ∧
    (runBatch (storeFetch []) Scope.empty [1]).1 ≠
      (runBatch (storeFetch seededTable) Scope.empty [1]).1) :=
  ⟨by decide, C7_scope_isolation (storeFetch seededTable) (storeFetch []) 1 (by decide)⟩
